import Mathlib

/-!
Verification of the metric-derivation engine of the Flagstar bank dashboard
(src/app.py, class BankDataAnalyzer).  The engine consumes, per bank, a list
of raw per-period records (dictionaries of FDIC field codes) and produces a
flat table of derived metric rows (calculate_metrics, lines 163-293).

Modelling conventions:
* Python floats are modelled by ℚ; every arithmetic expression of the source
  is transcribed literally, so formula-level equalities are preserved.
* A raw field value (JSON number / string / null) is RawValue; a string is
  recorded together with the outcome Python float() would give on it
  (strOfFloat q for a string parsing to q, strBad for one raising ValueError).
* A RawPeriodRecord holds the reporting date REPDTE (a YYYYMMDD string per
  the acquisition contract, absent when the key is missing from the record)
  and one Option RawValue per FDIC field code read by the engine; none means
  the key is absent, and dict.get then yields None.
* pandas.to_datetime(s, format='%Y%m%d') is modelled by parseDate, which
  accepts exactly the 8-digit strings denoting a real calendar date and
  returns the yyyymmdd numeral; chronological order of the parsed timestamps
  coincides with numeric order of these numerals.  (Timestamp range bounds,
  which only exclude dates centuries away from regulatory data, are not
  modelled.)
* Python exceptions (KeyError from the sort key lookup, ValueError from date
  parsing, KeyError from assigning the Date column of an empty DataFrame)
  are modelled by Except String; a for-loop whose body can raise is tryMap,
  which aborts at the first error.
* list.sort / sorted are stable; they are modelled by Mathlib's (stable)
  List.insertionSort.  df.sort_values('Date') sorts rows by the parsed date;
  the relative order of equal dates is unspecified by the output contract,
  and the model fixes the stable realisation.
-/

namespace FlagstarDash

/-- A raw field value delivered by the acquisition layer: JSON null, a JSON
number, or a JSON string.  A string is represented by the outcome of Python
float() on it: strOfFloat q is a string float() parses to q, strBad s is a
string on which float() raises ValueError. -/
inductive RawValue where
  | null : RawValue
  | num : ℚ → RawValue
  | strOfFloat : ℚ → RawValue
  | strBad : String → RawValue
deriving DecidableEq

/-- safe_float (app.py lines 157-161): None becomes 0.0, a value float()
rejects becomes 0.0, anything else is its parsed float value.  The outer
Option is the result of dict.get: none when the field key is absent. -/
def safe_float : Option RawValue → ℚ
  | none => 0
  | some RawValue.null => 0
  | some (RawValue.num q) => q
  | some (RawValue.strOfFloat q) => q
  | some (RawValue.strBad _) => 0

/-- One reporting period for one bank: the REPDTE reporting-date string
(none when the key is missing) and the raw values of the FDIC field codes
the engine reads (none when the key is missing). -/
structure RawPeriodRecord where
  repdte : Option String := none
  ASSET : Option RawValue := none
  DEP : Option RawValue := none
  LNLSGR : Option RawValue := none
  LNLSNET : Option RawValue := none
  SC : Option RawValue := none
  LNRE : Option RawValue := none
  LNRERES : Option RawValue := none
  LNREMULT : Option RawValue := none
  LNREAG : Option RawValue := none
  LNRENRES : Option RawValue := none
  LNRENROW : Option RawValue := none
  LNRENROT : Option RawValue := none
  LNRECONS : Option RawValue := none
  LNRECNFM : Option RawValue := none
  LNRECNOT : Option RawValue := none
  LNCOMRE : Option RawValue := none
  LNCI : Option RawValue := none
  LNAG : Option RawValue := none
  LNCRCD : Option RawValue := none
  LNCONOTH : Option RawValue := none
  LNATRES : Option RawValue := none
  P3ASSET : Option RawValue := none
  P9ASSET : Option RawValue := none
  RBCT1J : Option RawValue := none
  DRLNLS : Option RawValue := none
  CRLNLS : Option RawValue := none
  NTLNLSQ : Option RawValue := none
  NETINC : Option RawValue := none
  CT1BADJ : Option RawValue := none
  EQ : Option RawValue := none
  EQPP : Option RawValue := none
  NIMY : Option RawValue := none
  ERNASTR : Option RawValue := none
  NPERFV : Option RawValue := none
  P3ASSETR : Option RawValue := none
  P9ASSETR : Option RawValue := none
  NTLNLSR : Option RawValue := none
  IDERNCVR : Option RawValue := none
  ELNANTR : Option RawValue := none
  LNATRESR : Option RawValue := none
  LNRESNCR : Option RawValue := none
  NCLNLSR : Option RawValue := none
  LNLSDEPR : Option RawValue := none
  LNLSNTV : Option RawValue := none
  ROA : Option RawValue := none
  ROE : Option RawValue := none
  RBC1AAJ : Option RawValue := none
  RBCRWAJ : Option RawValue := none
  EEFFR : Option RawValue := none
deriving DecidableEq, Inhabited

/-- A decimal digit character, stated directly on code points ('0' is 48). -/
def isDigitChar (c : Char) : Bool := 48 ≤ c.toNat && c.toNat ≤ 57

/-- Numeric value of a digit character. -/
def digitVal (c : Char) : ℕ := c.toNat - 48

def isLeapYear (y : ℕ) : Bool := (y % 4 == 0 && y % 100 != 0) || y % 400 == 0

def daysInMonth (y m : ℕ) : ℕ :=
  if m = 2 then (if isLeapYear y then 29 else 28)
  else if m = 4 ∨ m = 6 ∨ m = 9 ∨ m = 11 then 30
  else 31

/-- Worker of parseDate on the character list of the string: year from the
first four digits, month from the next two, day from the last two, with the
month and day validity checks to_datetime performs. -/
def parseDateList : List Char → Option ℕ
  | [a, b, c, e, f, g, h, k] =>
    if isDigitChar a && isDigitChar b && isDigitChar c && isDigitChar e &&
       isDigitChar f && isDigitChar g && isDigitChar h && isDigitChar k then
      if 1 ≤ 10 * digitVal f + digitVal g && 10 * digitVal f + digitVal g ≤ 12 &&
         1 ≤ 10 * digitVal h + digitVal k &&
         10 * digitVal h + digitVal k ≤
           daysInMonth
             (1000 * digitVal a + 100 * digitVal b + 10 * digitVal c + digitVal e)
             (10 * digitVal f + digitVal g) then
        some (10000 * (1000 * digitVal a + 100 * digitVal b + 10 * digitVal c + digitVal e)
                + 100 * (10 * digitVal f + digitVal g) + (10 * digitVal h + digitVal k))
      else none
    else none
  | _ => none

/-- pandas.to_datetime(s, format='%Y%m%d') on a YYYYMMDD string: an 8-digit
string denoting a real calendar date parses to its yyyymmdd numeral,
anything else raises (none). -/
def parseDate (s : String) : Option ℕ :=
  parseDateList s.data

/-- One derived output row (the dict built per iteration of
calculate_metrics, lines 170-289, plus the final Date conversion): bank
name, parsed reporting date, the raw-field passthrough metrics, and the
computed metrics.  dateN is the yyyymmdd numeral of the reporting date. -/
structure DerivedMetricRow where
  bank : String
  dateN : ℕ
  totalAssets : ℚ
  totalDeposits : ℚ
  totalLoansAndLeases : ℚ
  netLoansAndLeases : ℚ
  totalSecurities : ℚ
  realEstateLoans : ℚ
  loansToResidentialProperties : ℚ
  multifamily : ℚ
  farmlandRealEstateLoans : ℚ
  loansToNonresidentialProperties : ℚ
  ownerOccupiedNonresidentialLoans : ℚ
  nonOwnerOccupiedNonresidentialLoans : ℚ
  reConstructionAndLandDevelopment : ℚ
  oneToFourFamilyConstruction : ℚ
  otherConstructionAndLand : ℚ
  commercialReNotSecured : ℚ
  commercialAndIndustrialLoans : ℚ
  agricultureLoans : ℚ
  creditCards : ℚ
  consumerLoans : ℚ
  allowanceForCreditLoss : ℚ
  pastDue30to89 : ℚ
  pastDue90plus : ℚ
  tier1CoreCapital : ℚ
  totalChargeOffs : ℚ
  totalRecoveries : ℚ
  quarterlyNetChargeOffs : ℚ
  netIncome : ℚ
  commonEquityTier1BeforeAdjustments : ℚ
  bankEquityCapital : ℚ
  perpetualPreferredStock : ℚ
  netInterestMargin : ℚ
  earningAssetsToTotalAssets : ℚ
  nonperformingAssetsToTotalAssets : ℚ
  pastDue30to89ToTotalAssets : ℚ
  pastDue90plusToTotalAssets : ℚ
  netChargeOffsToLoans : ℚ
  earningsCoverage : ℚ
  provisionToNetChargeOffs : ℚ
  lossAllowanceToLoans : ℚ
  lossAllowanceToNoncurrent : ℚ
  noncurrentToTotalLoans : ℚ
  netLoansToDeposits : ℚ
  netLoansToAssets : ℚ
  returnOnAssets : ℚ
  returnOnEquity : ℚ
  leverageCoreCapital : ℚ
  totalRiskBasedCapital : ℚ
  efficiency : ℚ
  ceclTransitionAmount : ℚ
  realEstateToT1ACL : ℚ
  reConstructionToT1ACL : ℚ
  ciLoansToT1ACL : ℚ
  agricultureToT1ACL : ℚ
  creditCardsToT1ACL : ℚ
  commercialReToT1ACL : ℚ
  noocCreGrowth3yr : Option ℚ
  netChargeOffsToACL : ℚ
deriving DecidableEq, Inhabited

/-- CECL Transition Amount (lines 230-236): ct1badj - eq + eqpp from
2019-01-01 on, 0 before. -/
def ceclOf (fin : RawPeriodRecord) (d : ℕ) : ℚ :=
  if 20190101 ≤ d then
    safe_float fin.CT1BADJ - safe_float fin.EQ + safe_float fin.EQPP
  else 0

/-- The capital base used as denominator of the concentration metrics
(lines 231-237): tier1 + acl - cecl_transition from 2019-01-01 on,
tier1 + acl before. -/
def capitalBaseOf (fin : RawPeriodRecord) (d : ℕ) : ℚ :=
  if 20190101 ≤ d then
    safe_float fin.RBCT1J + safe_float fin.LNATRES - ceclOf fin d
  else
    safe_float fin.RBCT1J + safe_float fin.LNATRES

/-- Non-owner-occupied CRE of one record (lines 261-266):
LNRECONS + LNREMULT + LNRENROT + LNCOMRE. -/
def noocCre (fin : RawPeriodRecord) : ℚ :=
  safe_float fin.LNRECONS + safe_float fin.LNREMULT +
    safe_float fin.LNRENROT + safe_float fin.LNCOMRE

/-- The 3-year growth-rate metric at index i of a bank's sorted record list
(lines 268-282): a fixed lookback of 12 index positions. -/
def growthAt (s : List RawPeriodRecord) (i : ℕ) : Option ℚ :=
  if 12 ≤ i then
    let old := noocCre (s.getD (i - 12) default)
    if 0 < old then some ((noocCre (s.getD i default) / old - 1) * 100)
    else none
  else none

/-- The derived row built from one record (the metrics dict of lines
170-289): bank name, parsed date d, the passthrough metrics, the CECL and
concentration metrics, the growth metric (computed from the sorted list by
growthAt and passed in), and the charge-off metric. -/
def mkRow (bank : String) (fin : RawPeriodRecord) (d : ℕ) (growth : Option ℚ) :
    DerivedMetricRow :=
  let capital_base := capitalBaseOf fin d
  { bank := bank
    dateN := d
    totalAssets := safe_float fin.ASSET
    totalDeposits := safe_float fin.DEP
    totalLoansAndLeases := safe_float fin.LNLSGR
    netLoansAndLeases := safe_float fin.LNLSNET
    totalSecurities := safe_float fin.SC
    realEstateLoans := safe_float fin.LNRE
    loansToResidentialProperties := safe_float fin.LNRERES
    multifamily := safe_float fin.LNREMULT
    farmlandRealEstateLoans := safe_float fin.LNREAG
    loansToNonresidentialProperties := safe_float fin.LNRENRES
    ownerOccupiedNonresidentialLoans := safe_float fin.LNRENROW
    nonOwnerOccupiedNonresidentialLoans := safe_float fin.LNRENROT
    reConstructionAndLandDevelopment := safe_float fin.LNRECONS
    oneToFourFamilyConstruction := safe_float fin.LNRECNFM
    otherConstructionAndLand := safe_float fin.LNRECNOT
    commercialReNotSecured := safe_float fin.LNCOMRE
    commercialAndIndustrialLoans := safe_float fin.LNCI
    agricultureLoans := safe_float fin.LNAG
    creditCards := safe_float fin.LNCRCD
    consumerLoans := safe_float fin.LNCONOTH
    allowanceForCreditLoss := safe_float fin.LNATRES
    pastDue30to89 := safe_float fin.P3ASSET
    pastDue90plus := safe_float fin.P9ASSET
    tier1CoreCapital := safe_float fin.RBCT1J
    totalChargeOffs := safe_float fin.DRLNLS
    totalRecoveries := safe_float fin.CRLNLS
    quarterlyNetChargeOffs := safe_float fin.NTLNLSQ
    netIncome := safe_float fin.NETINC
    commonEquityTier1BeforeAdjustments := safe_float fin.CT1BADJ
    bankEquityCapital := safe_float fin.EQ
    perpetualPreferredStock := safe_float fin.EQPP
    netInterestMargin := safe_float fin.NIMY
    earningAssetsToTotalAssets := safe_float fin.ERNASTR
    nonperformingAssetsToTotalAssets := safe_float fin.NPERFV
    pastDue30to89ToTotalAssets := safe_float fin.P3ASSETR
    pastDue90plusToTotalAssets := safe_float fin.P9ASSETR
    netChargeOffsToLoans := safe_float fin.NTLNLSR
    earningsCoverage := safe_float fin.IDERNCVR
    provisionToNetChargeOffs := safe_float fin.ELNANTR
    lossAllowanceToLoans := safe_float fin.LNATRESR
    lossAllowanceToNoncurrent := safe_float fin.LNRESNCR
    noncurrentToTotalLoans := safe_float fin.NCLNLSR
    netLoansToDeposits := safe_float fin.LNLSDEPR
    netLoansToAssets := safe_float fin.LNLSNTV
    returnOnAssets := safe_float fin.ROA
    returnOnEquity := safe_float fin.ROE
    leverageCoreCapital := safe_float fin.RBC1AAJ
    totalRiskBasedCapital := safe_float fin.RBCRWAJ
    efficiency := safe_float fin.EEFFR
    ceclTransitionAmount := ceclOf fin d
    realEstateToT1ACL :=
      if 0 < capital_base then safe_float fin.LNRE / capital_base * 100 else 0
    reConstructionToT1ACL :=
      if 0 < capital_base then safe_float fin.LNRECONS / capital_base * 100 else 0
    ciLoansToT1ACL :=
      if 0 < capital_base then safe_float fin.LNCI / capital_base * 100 else 0
    agricultureToT1ACL :=
      if 0 < capital_base then safe_float fin.LNAG / capital_base * 100 else 0
    creditCardsToT1ACL :=
      if 0 < capital_base then safe_float fin.LNCRCD / capital_base * 100 else 0
    commercialReToT1ACL :=
      if 0 < capital_base then
        (safe_float fin.LNRECONS + safe_float fin.LNREMULT +
          safe_float fin.LNRENRES + safe_float fin.LNCOMRE) / capital_base * 100
      else 0
    noocCreGrowth3yr := growth
    netChargeOffsToACL :=
      if 0 < safe_float fin.LNATRES then
        safe_float fin.NTLNLSQ / safe_float fin.LNATRES * 100
      else 0 }

/-- The sort key of the per-bank sort (line 167): the REPDTE value.  The
empty-string default is never reached, since a missing REPDTE raises
KeyError before sorting. -/
def repdteKey (fin : RawPeriodRecord) : String := fin.repdte.getD ""

/-- Lexicographic code-point order on character lists: Python's string
comparison, which sorted uses on the REPDTE keys. -/
def charListLe : List Char → List Char → Bool
  | [], _ => true
  | _ :: _, [] => false
  | a :: as, b :: bs =>
    if a.toNat < b.toNat then true
    else if b.toNat < a.toNat then false
    else charListLe as bs

/-- Python string comparison (code-point lexicographic). -/
def strLe (a b : String) : Bool := charListLe a.data b.data

/-- Comparison used by the per-bank sort: Python string order on REPDTE. -/
def keyLe (a b : RawPeriodRecord) : Prop := strLe (repdteKey a) (repdteKey b) = true

instance : DecidableRel keyLe :=
  fun a b => inferInstanceAs (Decidable (strLe (repdteKey a) (repdteKey b) = true))

theorem charListLe_total : ∀ as bs : List Char,
    charListLe as bs = true ∨ charListLe bs as = true
  | [], _ => Or.inl rfl
  | _ :: _, [] => Or.inr rfl
  | a :: as, b :: bs => by
      by_cases h1 : a.toNat < b.toNat
      · left; unfold charListLe; rw [if_pos h1]
      · by_cases h2 : b.toNat < a.toNat
        · right; unfold charListLe; rw [if_pos h2]
        · rcases charListLe_total as bs with h | h
          · left; unfold charListLe; rw [if_neg h1, if_neg h2]; exact h
          · right; unfold charListLe; rw [if_neg h2, if_neg h1]; exact h

theorem charListLe_trans : ∀ {as bs cs : List Char},
    charListLe as bs = true → charListLe bs cs = true → charListLe as cs = true
  | [], _, _, _, _ => rfl
  | _ :: _, [], _, h1, _ => by cases h1
  | _ :: _, _ :: _, [], _, h2 => by cases h2
  | a :: as, b :: bs, c :: cs, h1, h2 => by
      unfold charListLe at h1 h2 ⊢
      by_cases hab : a.toNat < b.toNat
      · rw [if_pos hab] at h1
        by_cases hbc : b.toNat < c.toNat
        · rw [if_pos (by omega : a.toNat < c.toNat)]
        · by_cases hcb : c.toNat < b.toNat
          · rw [if_neg hbc, if_pos hcb] at h2; cases h2
          · rw [if_pos (by omega : a.toNat < c.toNat)]
      · by_cases hba : b.toNat < a.toNat
        · rw [if_neg hab, if_pos hba] at h1; cases h1
        · rw [if_neg hab, if_neg hba] at h1
          by_cases hbc : b.toNat < c.toNat
          · rw [if_pos (by omega : a.toNat < c.toNat)]
          · by_cases hcb : c.toNat < b.toNat
            · rw [if_neg hbc, if_pos hcb] at h2; cases h2
            · rw [if_neg hbc, if_neg hcb] at h2
              rw [if_neg (by omega : ¬ a.toNat < c.toNat),
                if_neg (by omega : ¬ c.toNat < a.toNat)]
              exact charListLe_trans h1 h2

instance : IsTotal RawPeriodRecord keyLe :=
  ⟨fun a b => charListLe_total (repdteKey a).data (repdteKey b).data⟩

instance : IsTrans RawPeriodRecord keyLe :=
  ⟨fun _ _ _ h1 h2 => charListLe_trans h1 h2⟩

/-- sorted(financials, key=lambda x: x['REPDTE']) — a stable sort by the
REPDTE string. -/
def sortedOf (fins : List RawPeriodRecord) : List RawPeriodRecord :=
  List.insertionSort keyLe fins

/-- A Python for-loop whose body may raise: apply f in order, abort at the
first error. -/
def tryMap (f : α → Except String β) : List α → Except String (List β)
  | [] => Except.ok []
  | a :: as =>
    match f a with
    | Except.error e => Except.error e
    | Except.ok b =>
      match tryMap f as with
      | Except.error e => Except.error e
      | Except.ok bs => Except.ok (b :: bs)

/-- One iteration of the per-bank loop body (lines 169-289) at index i of
the sorted record list: parse the reporting date (ValueError aborts), then
build the row.  The growth metric reads the record 12 positions back in the
same sorted list. -/
def computeRow (bank : String) (s : List RawPeriodRecord) (i : ℕ) :
    Except String DerivedMetricRow :=
  match parseDate (repdteKey (s.getD i default)) with
  | none => Except.error "ValueError: to_datetime"
  | some d => Except.ok (mkRow bank (s.getD i default) d (growthAt s i))

/-- Process one bank (lines 166-289): sorting by x['REPDTE'] raises
KeyError if any record lacks the key; otherwise each record of the sorted
sequence yields one row. -/
def processBank (bank : String) (fins : List RawPeriodRecord) :
    Except String (List DerivedMetricRow) :=
  if fins.any (fun fin => fin.repdte.isNone) then
    Except.error "KeyError: REPDTE"
  else
    tryMap (computeRow bank (sortedOf fins)) (List.range (sortedOf fins).length)

/-- Final-table order: ascending parsed reporting date (line 293). -/
def dateLe (a b : DerivedMetricRow) : Prop := a.dateN ≤ b.dateN

instance : DecidableRel dateLe :=
  fun a b => inferInstanceAs (Decidable (a.dateN ≤ b.dateN))

instance : IsTotal DerivedMetricRow dateLe := ⟨fun _ _ => Nat.le_total _ _⟩

instance : IsTrans DerivedMetricRow dateLe := ⟨fun _ _ _ => Nat.le_trans⟩

/-- calculate_metrics (lines 163-293): process each bank of the input
mapping in order, concatenate the per-bank rows, convert the Date column
(which raises KeyError on an empty table, since pd.DataFrame of an empty
list has no Date column), and sort the table by date. -/
def calculate_metrics (input : List (String × List RawPeriodRecord)) :
    Except String (List DerivedMetricRow) :=
  match tryMap (fun p => processBank p.1 p.2) input with
  | Except.error e => Except.error e
  | Except.ok tables =>
    let all := tables.flatten
    if all.isEmpty then Except.error "KeyError: Date"
    else Except.ok (List.insertionSort dateLe all)

/-- A record with the CT1BADJ, EQ and EQPP fields replaced and every other
field unchanged (used to state that pre-2019 capital computations do not
read these three fields). -/
def setCapFields (r : RawPeriodRecord) (x y z : Option RawValue) : RawPeriodRecord :=
  { r with CT1BADJ := x, EQ := y, EQPP := z }

/-- Unwrap the successful result of the engine (empty table on error);
used only to phrase concrete witness instances. -/
def okRows : Except String (List DerivedMetricRow) → List DerivedMetricRow
  | Except.ok rows => rows
  | Except.error _ => []

/-- Concrete sample records for witness instances. -/
def wr0 : RawPeriodRecord :=
  { repdte := some "20181231",
    RBCT1J := some (RawValue.num 80), LNATRES := some (RawValue.num 10),
    CT1BADJ := some (RawValue.num 100), EQ := some (RawValue.num 90),
    EQPP := some (RawValue.num 5), LNRE := some (RawValue.num 150) }

def wr1 : RawPeriodRecord :=
  { repdte := some "20190101",
    RBCT1J := some (RawValue.num 80), LNATRES := some (RawValue.num 10),
    CT1BADJ := some (RawValue.num 100), EQ := some (RawValue.num 90),
    EQPP := some (RawValue.num 5), LNRE := some (RawValue.num 150) }

def wr2 : RawPeriodRecord :=
  { repdte := some "20200331",
    LNATRES := some (RawValue.num 50), NTLNLSQ := some (RawValue.num 5) }

def wr3 : RawPeriodRecord :=
  { repdte := some "20200630" }

def wIn : List (String × List RawPeriodRecord) :=
  [("BankA", [wr1, wr0]), ("BankB", [wr2, wr3])]

def wRows : List DerivedMetricRow := okRows (calculate_metrics wIn)

def c2Fins : List RawPeriodRecord := [wr2, wr3]

def c2Rows : List DerivedMetricRow := okRows (processBank "BankB" c2Fins)

def c5In : List (String × List RawPeriodRecord) := [("BankC", [wr2, wr3])]

def c9In : List (String × List RawPeriodRecord) :=
  [("BankA", [wr0, wr1]), ("BankB", [wr2])]

def c9Rows : List DerivedMetricRow := okRows (calculate_metrics c9In)

/-- Value of a digit string, most significant first (specification-side
measure used to relate the REPDTE string order to the date order). -/
def listVal : List Char → ℕ
  | [] => 0
  | c :: cs => digitVal c * 10 ^ cs.length + listVal cs

/-! ### Generic lemmas about the loop and sort combinators -/

theorem tryMap_ok_forall₂ {α β : Type _} {f : α → Except String β} :
    ∀ {l : List α} {ys : List β}, tryMap f l = Except.ok ys →
      List.Forall₂ (fun a b => f a = Except.ok b) l ys
  | [], _, h => by
      unfold tryMap at h
      cases h
      exact List.Forall₂.nil
  | a :: as, ys, h => by
      unfold tryMap at h
      cases hfa : f a with
      | error e => rw [hfa] at h; cases h
      | ok b =>
        rw [hfa] at h
        cases hrest : tryMap f as with
        | error e => rw [hrest] at h; cases h
        | ok bs =>
          rw [hrest] at h
          cases h
          exact List.Forall₂.cons hfa (tryMap_ok_forall₂ hrest)

theorem tryMap_ok_of_forall {α β : Type _} {f : α → Except String β} :
    ∀ {l : List α}, (∀ a ∈ l, ∃ b, f a = Except.ok b) →
      ∃ ys, tryMap f l = Except.ok ys
  | [], _ => ⟨[], rfl⟩
  | a :: as, h => by
      obtain ⟨b, hb⟩ := h a (List.mem_cons_self a as)
      obtain ⟨bs, hbs⟩ :=
        tryMap_ok_of_forall (fun x hx => h x (List.mem_cons_of_mem a hx))
      exact ⟨b :: bs, by unfold tryMap; rw [hb, hbs]⟩

theorem forall₂_mem_right {α β : Type _} {R : α → β → Prop} :
    ∀ {l : List α} {ys : List β}, List.Forall₂ R l ys →
      ∀ {b}, b ∈ ys → ∃ a ∈ l, R a b := by
  intro l ys h
  induction h with
  | nil => intro b hb; cases hb
  | cons hr _ ih =>
    intro b hb
    rcases List.mem_cons.mp hb with rfl | hb
    · exact ⟨_, List.mem_cons_self _ _, hr⟩
    · obtain ⟨a, ha, hra⟩ := ih hb
      exact ⟨a, List.mem_cons_of_mem _ ha, hra⟩

/-! ### Inversion lemmas for the engine -/

theorem computeRow_ok {bank : String} {s : List RawPeriodRecord} {i : ℕ}
    {row : DerivedMetricRow} (h : computeRow bank s i = Except.ok row) :
    ∃ d, parseDate (repdteKey (s.getD i default)) = some d ∧
      row = mkRow bank (s.getD i default) d (growthAt s i) := by
  unfold computeRow at h
  cases hp : parseDate (repdteKey (s.getD i default)) with
  | none => rw [hp] at h; cases h
  | some d => rw [hp] at h; cases h; exact ⟨d, rfl, rfl⟩

theorem processBank_ok {bank : String} {fins : List RawPeriodRecord}
    {rows : List DerivedMetricRow} (h : processBank bank fins = Except.ok rows) :
    (∀ fin ∈ fins, (RawPeriodRecord.repdte fin).isSome = true) ∧
    List.Forall₂ (fun i row => computeRow bank (sortedOf fins) i = Except.ok row)
      (List.range (sortedOf fins).length) rows := by
  unfold processBank at h
  by_cases hc : fins.any (fun fin => fin.repdte.isNone) = true
  · rw [if_pos hc] at h; cases h
  · rw [if_neg hc] at h
    refine ⟨?_, tryMap_ok_forall₂ h⟩
    intro fin hf
    have hfalse : fins.any (fun fin => fin.repdte.isNone) = false :=
      Bool.eq_false_iff.mpr hc
    have := List.any_eq_false.mp hfalse fin hf
    cases hrep : fin.repdte with
    | none => rw [hrep] at this; simp at this
    | some s => rfl

theorem sortedOf_length (fins : List RawPeriodRecord) :
    (sortedOf fins).length = fins.length :=
  (List.perm_insertionSort keyLe fins).length_eq

theorem processBank_length {bank : String} {fins : List RawPeriodRecord}
    {rows : List DerivedMetricRow} (h : processBank bank fins = Except.ok rows) :
    rows.length = fins.length := by
  have h2 := (processBank_ok h).2.length_eq
  rw [List.length_range] at h2
  rw [← h2, sortedOf_length]

theorem processBank_get {bank : String} {fins : List RawPeriodRecord}
    {rows : List DerivedMetricRow} (h : processBank bank fins = Except.ok rows)
    {i : ℕ} (hi : i < rows.length) :
    computeRow bank (sortedOf fins) i = Except.ok (rows.getD i default) := by
  have h2 := (processBank_ok h).2
  have hlen := h2.length_eq
  rw [List.length_range] at hlen
  have hi' : i < (List.range (sortedOf fins).length).length := by
    rw [List.length_range, hlen]; exact hi
  have := (List.forall₂_iff_get.mp h2).2 i hi' (by exact hi)
  simp only [List.get_eq_getElem, List.getElem_range] at this
  rw [List.getD_eq_getElem rows default hi]
  simpa using this

theorem processBank_mem {bank : String} {fins : List RawPeriodRecord}
    {rows : List DerivedMetricRow} (h : processBank bank fins = Except.ok rows)
    {row : DerivedMetricRow} (hr : row ∈ rows) :
    ∃ i, i < (sortedOf fins).length ∧
      computeRow bank (sortedOf fins) i = Except.ok row := by
  obtain ⟨i, hi, hcr⟩ := forall₂_mem_right (processBank_ok h).2 hr
  exact ⟨i, List.mem_range.mp hi, hcr⟩

theorem calculate_metrics_ok {input : List (String × List RawPeriodRecord)}
    {rows : List DerivedMetricRow} (h : calculate_metrics input = Except.ok rows) :
    ∃ tables, tryMap (fun p => processBank p.1 p.2) input = Except.ok tables ∧
      tables.flatten.isEmpty = false ∧
      rows = List.insertionSort dateLe tables.flatten := by
  unfold calculate_metrics at h
  cases ht : tryMap (fun p => processBank p.1 p.2) input with
  | error e => rw [ht] at h; cases h
  | ok tables =>
    rw [ht] at h
    dsimp only at h
    by_cases he : tables.flatten.isEmpty = true
    · rw [if_pos he] at h; cases h
    · rw [if_neg he] at h
      cases h
      exact ⟨tables, rfl, Bool.eq_false_iff.mpr he, rfl⟩

/-- Every row of the output table comes from one iteration of the per-bank
loop: there is an input entry and an index into its sorted record list
whose computeRow produced the row. -/
theorem row_provenance {input : List (String × List RawPeriodRecord)}
    {rows : List DerivedMetricRow} (h : calculate_metrics input = Except.ok rows)
    {row : DerivedMetricRow} (hr : row ∈ rows) :
    ∃ p ∈ input, ∃ i, i < (sortedOf p.2).length ∧
      computeRow p.1 (sortedOf p.2) i = Except.ok row := by
  obtain ⟨tables, ht, _, hrowseq⟩ := calculate_metrics_ok h
  rw [hrowseq] at hr
  have hmem : row ∈ tables.flatten :=
    (List.perm_insertionSort dateLe tables.flatten).mem_iff.mp hr
  obtain ⟨t, htmem, hrowt⟩ := List.mem_flatten.mp hmem
  obtain ⟨p, hp, hpb⟩ := forall₂_mem_right (tryMap_ok_forall₂ ht) htmem
  obtain ⟨i, hi, hcr⟩ := processBank_mem hpb hrowt
  exact ⟨p, hp, i, hi, hcr⟩

/-! ### Arithmetic facts about the date parser -/

theorem isDigitChar_bounds {c : Char} (h : isDigitChar c = true) :
    48 ≤ c.toNat ∧ c.toNat ≤ 57 := by
  simpa [isDigitChar, Bool.and_eq_true, decide_eq_true_eq] using h

theorem digitVal_lt_ten {c : Char} (h : isDigitChar c = true) : digitVal c < 10 := by
  have := isDigitChar_bounds h
  unfold digitVal
  omega

theorem digitChar_inj {c c' : Char} (hc : isDigitChar c = true)
    (hc' : isDigitChar c' = true) (h : digitVal c = digitVal c') : c = c' := by
  have h1 := isDigitChar_bounds hc
  have h2 := isDigitChar_bounds hc'
  unfold digitVal at h
  apply Char.ext
  apply UInt32.ext
  show c.toNat = c'.toNat
  omega

theorem daysInMonth_le_31 (y m : ℕ) : daysInMonth y m ≤ 31 := by
  unfold daysInMonth
  split_ifs <;> omega

theorem parseDateList_some :
    ∀ {l : List Char} {n : ℕ}, parseDateList l = some n →
      ∃ a b c e f g h k, l = [a, b, c, e, f, g, h, k] ∧
        (isDigitChar a = true ∧ isDigitChar b = true ∧ isDigitChar c = true ∧
         isDigitChar e = true ∧ isDigitChar f = true ∧ isDigitChar g = true ∧
         isDigitChar h = true ∧ isDigitChar k = true) ∧
        1 ≤ 10 * digitVal f + digitVal g ∧ 10 * digitVal f + digitVal g ≤ 12 ∧
        1 ≤ 10 * digitVal h + digitVal k ∧ 10 * digitVal h + digitVal k ≤ 31 ∧
        n = 10000 * (1000 * digitVal a + 100 * digitVal b + 10 * digitVal c + digitVal e)
              + 100 * (10 * digitVal f + digitVal g) + (10 * digitVal h + digitVal k)
  | [a, b, c, e, f, g, h, k], n, hp => by
      unfold parseDateList at hp
      dsimp only at hp
      by_cases hdig : (isDigitChar a && isDigitChar b && isDigitChar c && isDigitChar e &&
          isDigitChar f && isDigitChar g && isDigitChar h && isDigitChar k) = true
      · rw [if_pos hdig] at hp
        simp only [Bool.and_eq_true] at hdig
        obtain ⟨⟨⟨⟨⟨⟨⟨ha, hb⟩, hc⟩, he⟩, hf⟩, hg⟩, hh⟩, hk⟩ := hdig
        by_cases hrange : (1 ≤ 10 * digitVal f + digitVal g &&
            10 * digitVal f + digitVal g ≤ 12 &&
            1 ≤ 10 * digitVal h + digitVal k &&
            10 * digitVal h + digitVal k ≤
              daysInMonth
                (1000 * digitVal a + 100 * digitVal b + 10 * digitVal c + digitVal e)
                (10 * digitVal f + digitVal g)) = true
        · rw [if_pos hrange] at hp
          simp only [Bool.and_eq_true, decide_eq_true_eq] at hrange
          obtain ⟨⟨⟨hr1, hr2⟩, hr3⟩, hr4⟩ := hrange
          have hday :=
            le_trans hr4
              (daysInMonth_le_31
                (1000 * digitVal a + 100 * digitVal b + 10 * digitVal c + digitVal e)
                (10 * digitVal f + digitVal g))
          exact ⟨a, b, c, e, f, g, h, k, rfl,
            ⟨ha, hb, hc, he, hf, hg, hh, hk⟩, hr1, hr2, hr3, hday,
            (Option.some.inj hp).symm⟩
        · rw [if_neg hrange] at hp; cases hp
      · rw [if_neg hdig] at hp; cases hp
  | [], _, hp => by simp [parseDateList] at hp
  | [_], _, hp => by simp [parseDateList] at hp
  | [_, _], _, hp => by simp [parseDateList] at hp
  | [_, _, _], _, hp => by simp [parseDateList] at hp
  | [_, _, _, _], _, hp => by simp [parseDateList] at hp
  | [_, _, _, _, _], _, hp => by simp [parseDateList] at hp
  | [_, _, _, _, _, _], _, hp => by simp [parseDateList] at hp
  | [_, _, _, _, _, _, _], _, hp => by simp [parseDateList] at hp
  | _ :: _ :: _ :: _ :: _ :: _ :: _ :: _ :: _ :: _, _, hp => by
      simp [parseDateList] at hp

/-- Two YYYYMMDD strings parsing to the same date numeral are equal. -/
theorem parseDate_inj {s t : String} {n : ℕ}
    (hs : parseDate s = some n) (ht : parseDate t = some n) : s = t := by
  obtain ⟨a, b, c, e, f, g, h, k, hsl, ⟨da, db, dc, de, df, dg, dh, dk⟩,
    hm1, hm2, hd1, hd2, hn⟩ := parseDateList_some hs
  obtain ⟨a', b', c', e', f', g', h', k', htl, ⟨da', db', dc', de', df', dg', dh', dk'⟩,
    hm1', hm2', hd1', hd2', hn'⟩ := parseDateList_some ht
  have ba := digitVal_lt_ten da
  have bb := digitVal_lt_ten db
  have bc := digitVal_lt_ten dc
  have be := digitVal_lt_ten de
  have bf := digitVal_lt_ten df
  have bg := digitVal_lt_ten dg
  have bh := digitVal_lt_ten dh
  have bk := digitVal_lt_ten dk
  have ba' := digitVal_lt_ten da'
  have bb' := digitVal_lt_ten db'
  have bc' := digitVal_lt_ten dc'
  have be' := digitVal_lt_ten de'
  have bf' := digitVal_lt_ten df'
  have bg' := digitVal_lt_ten dg'
  have bh' := digitVal_lt_ten dh'
  have bk' := digitVal_lt_ten dk'
  have ea : a = a' := digitChar_inj da da' (by omega)
  have eb : b = b' := digitChar_inj db db' (by omega)
  have ec : c = c' := digitChar_inj dc dc' (by omega)
  have ee : e = e' := digitChar_inj de de' (by omega)
  have ef : f = f' := digitChar_inj df df' (by omega)
  have eg : g = g' := digitChar_inj dg dg' (by omega)
  have eh : h = h' := digitChar_inj dh dh' (by omega)
  have ek : k = k' := digitChar_inj dk dk' (by omega)
  apply String.ext
  rw [hsl, htl, ea, eb, ec, ee, ef, eg, eh, ek]

theorem listVal_lt : ∀ {l : List Char}, (∀ c ∈ l, isDigitChar c = true) →
    listVal l < 10 ^ l.length
  | [], _ => by simp [listVal]
  | c :: cs, h => by
      have hc := digitVal_lt_ten (h c (List.mem_cons_self c cs))
      have ih := listVal_lt (fun c' hc' => h c' (List.mem_cons_of_mem c hc'))
      simp only [listVal, List.length_cons, pow_succ]
      have h1 : digitVal c * 10 ^ cs.length + listVal cs <
          digitVal c * 10 ^ cs.length + 10 ^ cs.length :=
        Nat.add_lt_add_left ih _
      have h2 : digitVal c * 10 ^ cs.length + 10 ^ cs.length ≤ 10 ^ cs.length * 10 := by
      -- (digitVal c + 1) * 10 ^ cs.length ≤ 10 * 10 ^ cs.length since digitVal c < 10
        rw [Nat.mul_comm (10 ^ cs.length) 10, ← Nat.succ_mul]
        exact Nat.mul_le_mul_right _ (by omega)
      exact lt_of_lt_of_le h1 h2

theorem charListLe_listVal : ∀ {l l' : List Char}, l.length = l'.length →
    (∀ c ∈ l, isDigitChar c = true) → (∀ c ∈ l', isDigitChar c = true) →
    charListLe l l' = true → listVal l ≤ listVal l'
  | [], [], _, _, _, _ => le_rfl
  | [], _ :: _, hlen, _, _, _ => by simp at hlen
  | _ :: _, [], hlen, _, _, _ => by simp at hlen
  | a :: as, b :: bs, hlen, hd1, hd2, hle => by
      simp only [List.length_cons] at hlen
      have hlen' : as.length = bs.length := by omega
      unfold charListLe at hle
      have hda := isDigitChar_bounds (hd1 a (List.mem_cons_self a as))
      have hdb := isDigitChar_bounds (hd2 b (List.mem_cons_self b bs))
      by_cases hab : a.toNat < b.toNat
      · have hva : listVal as < 10 ^ as.length :=
          listVal_lt (fun c hc => hd1 c (List.mem_cons_of_mem a hc))
        rw [hlen'] at hva
        simp only [listVal, hlen']
        have h1 : digitVal a * 10 ^ bs.length + listVal as <
            digitVal a * 10 ^ bs.length + 10 ^ bs.length :=
          Nat.add_lt_add_left hva _
        have h2 : digitVal a * 10 ^ bs.length + 10 ^ bs.length ≤
            digitVal b * 10 ^ bs.length := by
          rw [← Nat.succ_mul]
          exact Nat.mul_le_mul_right _ (by unfold digitVal; omega)
        exact le_trans (le_of_lt (lt_of_lt_of_le h1 h2)) (Nat.le_add_right _ _)
      · by_cases hba : b.toNat < a.toNat
        · rw [if_neg hab, if_pos hba] at hle; cases hle
        · rw [if_neg hab, if_neg hba] at hle
          have hdv : digitVal a = digitVal b := by unfold digitVal; omega
          have ih := charListLe_listVal hlen'
            (fun c hc => hd1 c (List.mem_cons_of_mem a hc))
            (fun c hc => hd2 c (List.mem_cons_of_mem b hc)) hle
          simp only [listVal, hlen', hdv]
          exact Nat.add_le_add_left ih _

/-- A successfully parsed date numeral is the base-10 value of the REPDTE
digit string, so date order and string order coincide on parsed dates. -/
theorem parse_val_eq_listVal {s : String} {n : ℕ} (h : parseDate s = some n) :
    n = listVal s.data := by
  obtain ⟨a, b, c, e, f, g, hh, k, hsl, _, _, _, _, _, hn⟩ := parseDateList_some h
  rw [hsl, hn]
  norm_num [listVal]
  ring

theorem digits_of_decomp {l : List Char} {a b c e f g h k : Char}
    (hl : l = [a, b, c, e, f, g, h, k])
    (hd : isDigitChar a = true ∧ isDigitChar b = true ∧ isDigitChar c = true ∧
      isDigitChar e = true ∧ isDigitChar f = true ∧ isDigitChar g = true ∧
      isDigitChar h = true ∧ isDigitChar k = true) :
    ∀ x ∈ l, isDigitChar x = true := by
  subst hl
  intro x hx
  simp only [List.mem_cons, List.not_mem_nil, or_false] at hx
  obtain ⟨h1, h2, h3, h4, h5, h6, h7, h8⟩ := hd
  rcases hx with rfl | rfl | rfl | rfl | rfl | rfl | rfl | rfl <;> assumption

/-- The REPDTE string comparison of the per-bank sort is monotone in the
parsed dates: a key-≤ pair of records with parseable dates has its parsed
numerals in the same order. -/
theorem key_date_mono {a b : RawPeriodRecord} {da db : ℕ} (hab : keyLe a b)
    (hpa : parseDate (repdteKey a) = some da)
    (hpb : parseDate (repdteKey b) = some db) : da ≤ db := by
  obtain ⟨a1, a2, a3, a4, a5, a6, a7, a8, hla, hdiga, _⟩ := parseDateList_some hpa
  obtain ⟨b1, b2, b3, b4, b5, b6, b7, b8, hlb, hdigb, _⟩ := parseDateList_some hpb
  rw [parse_val_eq_listVal hpa, parse_val_eq_listVal hpb]
  apply charListLe_listVal
  · rw [hla, hlb]; rfl
  · exact digits_of_decomp hla hdiga
  · exact digits_of_decomp hlb hdigb
  · exact hab

/-! ### Projections of the row constructor -/

theorem mkRow_bank (b : String) (fin : RawPeriodRecord) (d : ℕ) (g : Option ℚ) :
    (mkRow b fin d g).bank = b := rfl

theorem mkRow_dateN (b : String) (fin : RawPeriodRecord) (d : ℕ) (g : Option ℚ) :
    (mkRow b fin d g).dateN = d := rfl

theorem mkRow_cecl (b : String) (fin : RawPeriodRecord) (d : ℕ) (g : Option ℚ) :
    (mkRow b fin d g).ceclTransitionAmount = ceclOf fin d := rfl

theorem mkRow_ct1badj (b : String) (fin : RawPeriodRecord) (d : ℕ) (g : Option ℚ) :
    (mkRow b fin d g).commonEquityTier1BeforeAdjustments = safe_float fin.CT1BADJ := rfl

theorem mkRow_bankEquity (b : String) (fin : RawPeriodRecord) (d : ℕ) (g : Option ℚ) :
    (mkRow b fin d g).bankEquityCapital = safe_float fin.EQ := rfl

theorem mkRow_eqpp (b : String) (fin : RawPeriodRecord) (d : ℕ) (g : Option ℚ) :
    (mkRow b fin d g).perpetualPreferredStock = safe_float fin.EQPP := rfl

theorem mkRow_tier1 (b : String) (fin : RawPeriodRecord) (d : ℕ) (g : Option ℚ) :
    (mkRow b fin d g).tier1CoreCapital = safe_float fin.RBCT1J := rfl

theorem mkRow_acl (b : String) (fin : RawPeriodRecord) (d : ℕ) (g : Option ℚ) :
    (mkRow b fin d g).allowanceForCreditLoss = safe_float fin.LNATRES := rfl

theorem mkRow_ntlnlsq (b : String) (fin : RawPeriodRecord) (d : ℕ) (g : Option ℚ) :
    (mkRow b fin d g).quarterlyNetChargeOffs = safe_float fin.NTLNLSQ := rfl

theorem mkRow_growth (b : String) (fin : RawPeriodRecord) (d : ℕ) (g : Option ℚ) :
    (mkRow b fin d g).noocCreGrowth3yr = g := rfl

theorem mkRow_ncoACL (b : String) (fin : RawPeriodRecord) (d : ℕ) (g : Option ℚ) :
    (mkRow b fin d g).netChargeOffsToACL =
      if 0 < safe_float fin.LNATRES then
        safe_float fin.NTLNLSQ / safe_float fin.LNATRES * 100
      else 0 := rfl

theorem mkRow_re (b : String) (fin : RawPeriodRecord) (d : ℕ) (g : Option ℚ) :
    (mkRow b fin d g).realEstateLoans = safe_float fin.LNRE := rfl

theorem mkRow_recons (b : String) (fin : RawPeriodRecord) (d : ℕ) (g : Option ℚ) :
    (mkRow b fin d g).reConstructionAndLandDevelopment = safe_float fin.LNRECONS := rfl

theorem mkRow_mult (b : String) (fin : RawPeriodRecord) (d : ℕ) (g : Option ℚ) :
    (mkRow b fin d g).multifamily = safe_float fin.LNREMULT := rfl

theorem mkRow_nonres (b : String) (fin : RawPeriodRecord) (d : ℕ) (g : Option ℚ) :
    (mkRow b fin d g).loansToNonresidentialProperties = safe_float fin.LNRENRES := rfl

theorem mkRow_comre (b : String) (fin : RawPeriodRecord) (d : ℕ) (g : Option ℚ) :
    (mkRow b fin d g).commercialReNotSecured = safe_float fin.LNCOMRE := rfl

theorem mkRow_ci (b : String) (fin : RawPeriodRecord) (d : ℕ) (g : Option ℚ) :
    (mkRow b fin d g).commercialAndIndustrialLoans = safe_float fin.LNCI := rfl

theorem mkRow_ag (b : String) (fin : RawPeriodRecord) (d : ℕ) (g : Option ℚ) :
    (mkRow b fin d g).agricultureLoans = safe_float fin.LNAG := rfl

theorem mkRow_cc (b : String) (fin : RawPeriodRecord) (d : ℕ) (g : Option ℚ) :
    (mkRow b fin d g).creditCards = safe_float fin.LNCRCD := rfl

theorem mkRow_concRE (b : String) (fin : RawPeriodRecord) (d : ℕ) (g : Option ℚ) :
    (mkRow b fin d g).realEstateToT1ACL =
      if 0 < capitalBaseOf fin d then safe_float fin.LNRE / capitalBaseOf fin d * 100
      else 0 := rfl

theorem mkRow_concRECons (b : String) (fin : RawPeriodRecord) (d : ℕ) (g : Option ℚ) :
    (mkRow b fin d g).reConstructionToT1ACL =
      if 0 < capitalBaseOf fin d then safe_float fin.LNRECONS / capitalBaseOf fin d * 100
      else 0 := rfl

theorem mkRow_concCI (b : String) (fin : RawPeriodRecord) (d : ℕ) (g : Option ℚ) :
    (mkRow b fin d g).ciLoansToT1ACL =
      if 0 < capitalBaseOf fin d then safe_float fin.LNCI / capitalBaseOf fin d * 100
      else 0 := rfl

theorem mkRow_concAg (b : String) (fin : RawPeriodRecord) (d : ℕ) (g : Option ℚ) :
    (mkRow b fin d g).agricultureToT1ACL =
      if 0 < capitalBaseOf fin d then safe_float fin.LNAG / capitalBaseOf fin d * 100
      else 0 := rfl

theorem mkRow_concCC (b : String) (fin : RawPeriodRecord) (d : ℕ) (g : Option ℚ) :
    (mkRow b fin d g).creditCardsToT1ACL =
      if 0 < capitalBaseOf fin d then safe_float fin.LNCRCD / capitalBaseOf fin d * 100
      else 0 := rfl

theorem mkRow_concCRE (b : String) (fin : RawPeriodRecord) (d : ℕ) (g : Option ℚ) :
    (mkRow b fin d g).commercialReToT1ACL =
      if 0 < capitalBaseOf fin d then
        (safe_float fin.LNRECONS + safe_float fin.LNREMULT +
          safe_float fin.LNRENRES + safe_float fin.LNCOMRE) / capitalBaseOf fin d * 100
      else 0 := rfl

/-! ### Further provenance lemmas -/

theorem processBank_bank {bank : String} {fins : List RawPeriodRecord}
    {rows : List DerivedMetricRow} (h : processBank bank fins = Except.ok rows)
    {row : DerivedMetricRow} (hr : row ∈ rows) : row.bank = bank := by
  obtain ⟨i, _, hcr⟩ := processBank_mem h hr
  obtain ⟨d, _, rfl⟩ := computeRow_ok hcr
  exact mkRow_bank _ _ _ _

theorem row_provenance_bank {input : List (String × List RawPeriodRecord)}
    {rows : List DerivedMetricRow} (h : calculate_metrics input = Except.ok rows)
    {row : DerivedMetricRow} (hr : row ∈ rows) :
    ∃ p ∈ input, ∃ t, processBank p.1 p.2 = Except.ok t ∧ row ∈ t := by
  obtain ⟨tables, ht, _, hrowseq⟩ := calculate_metrics_ok h
  rw [hrowseq] at hr
  have hmem : row ∈ tables.flatten :=
    (List.perm_insertionSort dateLe tables.flatten).mem_iff.mp hr
  obtain ⟨t, htmem, hrowt⟩ := List.mem_flatten.mp hmem
  obtain ⟨p, hp, hpb⟩ := forall₂_mem_right (tryMap_ok_forall₂ ht) htmem
  exact ⟨p, hp, t, hpb, hrowt⟩

theorem forall₂_mem_left {α β : Type _} {R : α → β → Prop} :
    ∀ {l : List α} {ys : List β}, List.Forall₂ R l ys →
      ∀ {a}, a ∈ l → ∃ b ∈ ys, R a b := by
  intro l ys h
  induction h with
  | nil => intro a ha; cases ha
  | cons hr _ ih =>
    intro a ha
    rcases List.mem_cons.mp ha with rfl | ha
    · exact ⟨_, List.mem_cons_self _ _, hr⟩
    · obtain ⟨b, hb, hrb⟩ := ih ha
      exact ⟨b, List.mem_cons_of_mem _ hb, hrb⟩

theorem forall₂_map_eq {α β γ : Type _} {R : α → β → Prop} {f : α → γ} {g : β → γ}
    (hfg : ∀ a b, R a b → g b = f a) :
    ∀ {l : List α} {ys : List β}, List.Forall₂ R l ys → ys.map g = l.map f := by
  intro l ys h
  induction h with
  | nil => rfl
  | cons hr _ ih => simp only [List.map]; rw [ih, hfg _ _ hr]

theorem pairwise_of_forall₂ {α β : Type _} {R : α → β → Prop}
    {Q : α → α → Prop} {S : β → β → Prop}
    (himp : ∀ a a' b b', R a b → R a' b' → Q a a' → S b b') :
    ∀ {l : List α} {ys : List β}, List.Forall₂ R l ys →
      l.Pairwise Q → ys.Pairwise S := by
  intro l ys hf
  induction hf with
  | nil => intro _; exact List.Pairwise.nil
  | cons hr hf ih =>
    intro hp
    obtain ⟨hhead, htail⟩ := List.pairwise_cons.mp hp
    refine List.Pairwise.cons ?_ (ih htail)
    intro b' hb'
    obtain ⟨a', ha', hra'⟩ := forall₂_mem_right hf hb'
    exact himp _ _ _ _ hr hra' (hhead a' ha')

/-- Within one bank, distinct REPDTE values yield rows with distinct parsed
dates (parseDate is injective on successfully parsed strings). -/
theorem processBank_dates_nodup {bank : String} {fins : List RawPeriodRecord}
    {rows : List DerivedMetricRow} (h : processBank bank fins = Except.ok rows)
    (hnd : (fins.map RawPeriodRecord.repdte).Nodup) :
    rows.Pairwise (fun a b => a.dateN ≠ b.dateN) := by
  have hsome := (processBank_ok h).1
  have hlenrows : rows.length = fins.length := processBank_length h
  have hslen : (sortedOf fins).length = fins.length := sortedOf_length fins
  have hsnd : ((sortedOf fins).map RawPeriodRecord.repdte).Nodup :=
    (((List.perm_insertionSort keyLe fins).map RawPeriodRecord.repdte).nodup_iff).mpr hnd
  have hpair := List.pairwise_map.mp hsnd
  rw [List.pairwise_iff_getElem] at hpair ⊢
  intro i j hi hj hij
  have hci := processBank_get h hi
  have hcj := processBank_get h hj
  obtain ⟨di, hdi, hri⟩ := computeRow_ok hci
  obtain ⟨dj, hdj, hrj⟩ := computeRow_ok hcj
  have hi2 : i < (sortedOf fins).length := by omega
  have hj2 : j < (sortedOf fins).length := by omega
  have hgi : rows[i] = mkRow bank ((sortedOf fins).getD i default) di
      (growthAt (sortedOf fins) i) := by
    rw [← List.getD_eq_getElem rows default hi]; exact hri
  have hgj : rows[j] = mkRow bank ((sortedOf fins).getD j default) dj
      (growthAt (sortedOf fins) j) := by
    rw [← List.getD_eq_getElem rows default hj]; exact hrj
  intro hEq
  rw [hgi, hgj, mkRow_dateN, mkRow_dateN] at hEq
  subst hEq
  have hkey : repdteKey ((sortedOf fins).getD i default) =
      repdteKey ((sortedOf fins).getD j default) := parseDate_inj hdi hdj
  have hne := hpair i j hi2 hj2 hij
  rw [List.getD_eq_getElem _ _ hi2, List.getD_eq_getElem _ _ hj2] at hkey
  apply hne
  have hmi : (sortedOf fins)[i] ∈ fins :=
    ((List.perm_insertionSort keyLe fins).mem_iff).mp (List.getElem_mem hi2)
  have hmj : (sortedOf fins)[j] ∈ fins :=
    ((List.perm_insertionSort keyLe fins).mem_iff).mp (List.getElem_mem hj2)
  obtain ⟨si, hsi⟩ := Option.isSome_iff_exists.mp (hsome _ hmi)
  obtain ⟨sj, hsj⟩ := Option.isSome_iff_exists.mp (hsome _ hmj)
  unfold repdteKey at hkey
  rw [hsi, hsj] at hkey ⊢
  simp only [Option.getD_some] at hkey
  rw [hkey]

theorem processBank_nil (b : String) :
    processBank b ([] : List RawPeriodRecord) = Except.ok [] := rfl

/-- Removing an input entry with an empty record list does not change the
concatenated per-bank tables (nor the resulting error, if any). -/
theorem tryMap_flatten_drop_empty (b : String)
    (post : List (String × List RawPeriodRecord)) :
    ∀ pre : List (String × List RawPeriodRecord),
      (tryMap (fun p => processBank p.1 p.2) (pre ++ (b, []) :: post)).map List.flatten =
      (tryMap (fun p => processBank p.1 p.2) (pre ++ post)).map List.flatten
  | [] => by
      simp only [List.nil_append]
      cases hpost : tryMap (fun p => processBank p.1 p.2) post with
      | error e => simp [tryMap, processBank_nil, hpost, Except.map]
      | ok bs => simp [tryMap, processBank_nil, hpost, Except.map]
  | p :: pre => by
      have ih := tryMap_flatten_drop_empty b post pre
      simp only [List.cons_append]
      cases hp : processBank p.1 p.2 with
      | error e => simp [tryMap, hp, Except.map]
      | ok t =>
        cases h1 : tryMap (fun q => processBank q.1 q.2) (pre ++ (b, []) :: post) with
        | error e =>
          cases h2 : tryMap (fun q => processBank q.1 q.2) (pre ++ post) with
          | error e2 =>
            rw [h1, h2] at ih
            simp only [Except.map] at ih
            cases ih
            simp [tryMap, hp, h1, h2, Except.map]
          | ok t2 => rw [h1, h2] at ih; simp [Except.map] at ih
        | ok t1 =>
          cases h2 : tryMap (fun q => processBank q.1 q.2) (pre ++ post) with
          | error e2 => rw [h1, h2] at ih; simp [Except.map] at ih
          | ok t2 =>
            rw [h1, h2] at ih
            simp only [Except.map] at ih
            replace ih := Except.ok.inj ih
            simp [tryMap, hp, h1, h2, Except.map, ih]

/-- A bank whose every record carries a well-formed reporting date is
processed without failure, one row per record. -/
theorem processBank_ok_of_dates {bank : String} {fins : List RawPeriodRecord}
    (hdates : ∀ fin ∈ fins, (RawPeriodRecord.repdte fin).isSome = true ∧
      (parseDate (repdteKey fin)).isSome = true) :
    ∃ rows, processBank bank fins = Except.ok rows ∧ rows.length = fins.length := by
  have hno : fins.any (fun fin => fin.repdte.isNone) = false := by
    rw [List.any_eq_false]
    intro fin hf
    have h1 := (hdates fin hf).1
    cases hrep : fin.repdte with
    | none => rw [hrep] at h1; cases h1
    | some s => simp [hrep]
  have hcr : ∀ i ∈ List.range (sortedOf fins).length, ∃ row,
      computeRow bank (sortedOf fins) i = Except.ok row := by
    intro i hi
    rw [List.mem_range] at hi
    have hmem : (sortedOf fins).getD i default ∈ sortedOf fins := by
      rw [List.getD_eq_getElem _ _ hi]; exact List.getElem_mem hi
    have hmem' : (sortedOf fins).getD i default ∈ fins :=
      ((List.perm_insertionSort keyLe fins).mem_iff).mp hmem
    obtain ⟨d, hd⟩ := Option.isSome_iff_exists.mp (hdates _ hmem').2
    refine ⟨mkRow bank ((sortedOf fins).getD i default) d (growthAt (sortedOf fins) i), ?_⟩
    unfold computeRow
    rw [hd]
  obtain ⟨rows, hrows⟩ := tryMap_ok_of_forall hcr
  refine ⟨rows, ?_, ?_⟩
  · unfold processBank
    rw [if_neg (by simp [hno])]
    exact hrows
  · have hlen := (tryMap_ok_forall₂ hrows).length_eq
    rw [List.length_range] at hlen
    rw [← hlen, sortedOf_length]

/-! ### Claim theorems -/

/-- C4: the numeric coercion safe_float returns 0 when the value is
missing, 0 when it is JSON null, 0 when it is a string float() cannot
parse, and the parsed value otherwise.  It is a total function into ℚ
(so it never raises), and the fallback for missing/unparseable input is
the number 0, not a missing-value sentinel: ℚ has no NaN and the two
fallback branches literally return 0. -/
theorem c4_safe_float_policy :
    safe_float none = 0 ∧
    safe_float (some RawValue.null) = 0 ∧
    (∀ s, safe_float (some (RawValue.strBad s)) = 0) ∧
    (∀ q, safe_float (some (RawValue.num q)) = q) ∧
    (∀ q, safe_float (some (RawValue.strOfFloat q)) = q) :=
  ⟨rfl, rfl, fun _ => rfl, fun _ => rfl, fun _ => rfl⟩

/-- C7: in every derived row, the Net Charge-Offs / Allowance for Credit
Loss metric equals quarterly net charge-offs / allowance * 100 when the
allowance is positive, and 0 when the allowance is ≤ 0. -/
theorem c7_nco_to_acl (input : List (String × List RawPeriodRecord))
    (rows : List DerivedMetricRow) (h : calculate_metrics input = Except.ok rows)
    (row : DerivedMetricRow) (hr : row ∈ rows) :
    (0 < row.allowanceForCreditLoss →
      row.netChargeOffsToACL =
        row.quarterlyNetChargeOffs / row.allowanceForCreditLoss * 100) ∧
    (row.allowanceForCreditLoss ≤ 0 → row.netChargeOffsToACL = 0) := by
  obtain ⟨p, hp, i, hi, hcr⟩ := row_provenance h hr
  obtain ⟨d, hpd, rfl⟩ := computeRow_ok hcr
  rw [mkRow_acl, mkRow_ntlnlsq, mkRow_ncoACL]
  constructor
  · intro hpos; rw [if_pos hpos]
  · intro hneg; rw [if_neg (not_lt.mpr hneg)]

/-- Witness for C7 at a concrete input: the row with allowance 50 and
quarterly net charge-offs 5 satisfies the positive-allowance formula, and
its metric evaluates to 10; the row with allowance 0 gets metric 0. -/
theorem c7_witness :
    ((wRows.getD 2 default).netChargeOffsToACL =
      (wRows.getD 2 default).quarterlyNetChargeOffs /
        (wRows.getD 2 default).allowanceForCreditLoss * 100) ∧
    (wRows.getD 2 default).netChargeOffsToACL = 10 ∧
    (wRows.getD 3 default).netChargeOffsToACL = 0 := by
  refine ⟨(c7_nco_to_acl wIn wRows rfl _ ?_).1 (by decide), ?_, by decide⟩
  · rw [List.getD_eq_getElem _ _ (by decide : 2 < wRows.length)]
    exact List.getElem_mem _
  · rw [show (wRows.getD 2 default).netChargeOffsToACL = (5 : ℚ) / 50 * 100 from rfl]
    norm_num

/-- C1: in every derived row, from 2019-01-01 on the stored CECL Transition
Amount equals ct1badj - eq + eqpp, and strictly before 2019-01-01 it is 0;
moreover the row arises from a record fin for which the capital base used
by the concentration metrics, capitalBaseOf fin, equals
tier1 + acl - cecl_transition (with cecl_transition = 0 before 2019, this
is tier1 + acl there).  The boundary is the exact ≤ / < split at the
numeral 20190101, so 2019-01-01 uses the adjusted formula and 2018-12-31
does not. -/
theorem c1_cecl_transition (input : List (String × List RawPeriodRecord))
    (rows : List DerivedMetricRow) (h : calculate_metrics input = Except.ok rows)
    (row : DerivedMetricRow) (hr : row ∈ rows) :
    (20190101 ≤ row.dateN →
      row.ceclTransitionAmount =
        row.commonEquityTier1BeforeAdjustments - row.bankEquityCapital +
          row.perpetualPreferredStock) ∧
    (row.dateN < 20190101 → row.ceclTransitionAmount = 0) ∧
    ∃ fin : RawPeriodRecord, ∃ g : Option ℚ,
      row = mkRow row.bank fin row.dateN g ∧
      capitalBaseOf fin row.dateN =
        row.tier1CoreCapital + row.allowanceForCreditLoss - row.ceclTransitionAmount := by
  obtain ⟨p, hp, i, hi, hcr⟩ := row_provenance h hr
  obtain ⟨d, hpd, rfl⟩ := computeRow_ok hcr
  refine ⟨?_, ?_, (sortedOf p.2).getD i default, growthAt (sortedOf p.2) i, ?_, ?_⟩
  · intro hge
    rw [mkRow_dateN] at hge
    rw [mkRow_cecl, mkRow_ct1badj, mkRow_bankEquity, mkRow_eqpp]
    unfold ceclOf
    rw [if_pos hge]
  · intro hlt
    rw [mkRow_dateN] at hlt
    rw [mkRow_cecl]
    unfold ceclOf
    rw [if_neg (by omega)]
  · rw [mkRow_bank, mkRow_dateN]
  · rw [mkRow_dateN, mkRow_tier1, mkRow_acl, mkRow_cecl]
    unfold capitalBaseOf
    by_cases hge : 20190101 ≤ d
    · rw [if_pos hge]
    · rw [if_neg hge]
      unfold ceclOf
      rw [if_neg hge]
      ring

/-- Witness for C1 at a concrete input: the row dated 2019-01-01 (with
ct1badj 100, eq 90, eqpp 5) has stored CECL transition 100 - 90 + 5 = 15,
while the row dated 2018-12-31 with the same inputs has 0. -/
theorem c1_witness :
    ((wRows.getD 1 default).ceclTransitionAmount =
      (wRows.getD 1 default).commonEquityTier1BeforeAdjustments -
        (wRows.getD 1 default).bankEquityCapital +
        (wRows.getD 1 default).perpetualPreferredStock) ∧
    (wRows.getD 1 default).ceclTransitionAmount = 15 ∧
    (wRows.getD 0 default).ceclTransitionAmount = 0 ∧
    (wRows.getD 0 default).dateN = 20181231 ∧ (wRows.getD 1 default).dateN = 20190101 := by
  refine ⟨(c1_cecl_transition wIn wRows rfl _ ?_).1 (by decide),
    ?_, by decide, by decide, by decide⟩
  · rw [List.getD_eq_getElem _ _ (by decide : 1 < wRows.length)]
    exact List.getElem_mem _
  · rw [show (wRows.getD 1 default).ceclTransitionAmount = (100 : ℚ) - 90 + 5 from rfl]
    norm_num

/-- C3: every derived row arises from a record fin such that when the
capital base is positive the five single-category concentration metrics
equal category / capital_base * 100 and the commercial-RE metric equals
(construction + multifamily + nonresidential + commercial-RE-not-secured)
/ capital_base * 100, while when the capital base is ≤ 0 all six metrics
are 0 (never null or an error: the fields are total rationals). -/
theorem c3_concentration (input : List (String × List RawPeriodRecord))
    (rows : List DerivedMetricRow) (h : calculate_metrics input = Except.ok rows)
    (row : DerivedMetricRow) (hr : row ∈ rows) :
    ∃ fin : RawPeriodRecord, ∃ g : Option ℚ,
      row = mkRow row.bank fin row.dateN g ∧
      (0 < capitalBaseOf fin row.dateN →
        row.realEstateToT1ACL =
          row.realEstateLoans / capitalBaseOf fin row.dateN * 100 ∧
        row.reConstructionToT1ACL =
          row.reConstructionAndLandDevelopment / capitalBaseOf fin row.dateN * 100 ∧
        row.ciLoansToT1ACL =
          row.commercialAndIndustrialLoans / capitalBaseOf fin row.dateN * 100 ∧
        row.agricultureToT1ACL =
          row.agricultureLoans / capitalBaseOf fin row.dateN * 100 ∧
        row.creditCardsToT1ACL =
          row.creditCards / capitalBaseOf fin row.dateN * 100 ∧
        row.commercialReToT1ACL =
          (row.reConstructionAndLandDevelopment + row.multifamily +
            row.loansToNonresidentialProperties + row.commercialReNotSecured) /
            capitalBaseOf fin row.dateN * 100) ∧
      (capitalBaseOf fin row.dateN ≤ 0 →
        row.realEstateToT1ACL = 0 ∧ row.reConstructionToT1ACL = 0 ∧
        row.ciLoansToT1ACL = 0 ∧ row.agricultureToT1ACL = 0 ∧
        row.creditCardsToT1ACL = 0 ∧ row.commercialReToT1ACL = 0) := by
  obtain ⟨p, hp, i, hi, hcr⟩ := row_provenance h hr
  obtain ⟨d, hpd, rfl⟩ := computeRow_ok hcr
  refine ⟨(sortedOf p.2).getD i default, growthAt (sortedOf p.2) i,
    by rw [mkRow_bank, mkRow_dateN], ?_, ?_⟩
  · intro hpos
    rw [mkRow_dateN] at hpos
    simp only [mkRow_dateN, mkRow_concRE, mkRow_concRECons, mkRow_concCI,
      mkRow_concAg, mkRow_concCC, mkRow_concCRE, mkRow_re, mkRow_recons,
      mkRow_mult, mkRow_nonres, mkRow_comre, mkRow_ci, mkRow_ag, mkRow_cc,
      if_pos hpos]
    exact ⟨trivial, trivial, trivial, trivial, trivial, trivial⟩
  · intro hneg
    rw [mkRow_dateN] at hneg
    simp only [mkRow_dateN, mkRow_concRE, mkRow_concRECons, mkRow_concCI,
      mkRow_concAg, mkRow_concCC, mkRow_concCRE, if_neg (not_lt.mpr hneg)]
    exact ⟨trivial, trivial, trivial, trivial, trivial, trivial⟩

/-- Witness for C3 at a concrete input: the row dated 2020-06-30 whose
record has no capital fields (capital base 0) exists in the output and
satisfies the statement; its six concentration metrics are all 0. -/
theorem c3_witness :
    (∃ fin : RawPeriodRecord, ∃ g : Option ℚ,
      wRows.getD 3 default =
        mkRow (wRows.getD 3 default).bank fin (wRows.getD 3 default).dateN g ∧
      (0 < capitalBaseOf fin (wRows.getD 3 default).dateN →
        (wRows.getD 3 default).realEstateToT1ACL =
          (wRows.getD 3 default).realEstateLoans /
            capitalBaseOf fin (wRows.getD 3 default).dateN * 100 ∧
        (wRows.getD 3 default).reConstructionToT1ACL =
          (wRows.getD 3 default).reConstructionAndLandDevelopment /
            capitalBaseOf fin (wRows.getD 3 default).dateN * 100 ∧
        (wRows.getD 3 default).ciLoansToT1ACL =
          (wRows.getD 3 default).commercialAndIndustrialLoans /
            capitalBaseOf fin (wRows.getD 3 default).dateN * 100 ∧
        (wRows.getD 3 default).agricultureToT1ACL =
          (wRows.getD 3 default).agricultureLoans /
            capitalBaseOf fin (wRows.getD 3 default).dateN * 100 ∧
        (wRows.getD 3 default).creditCardsToT1ACL =
          (wRows.getD 3 default).creditCards /
            capitalBaseOf fin (wRows.getD 3 default).dateN * 100 ∧
        (wRows.getD 3 default).commercialReToT1ACL =
          ((wRows.getD 3 default).reConstructionAndLandDevelopment +
            (wRows.getD 3 default).multifamily +
            (wRows.getD 3 default).loansToNonresidentialProperties +
            (wRows.getD 3 default).commercialReNotSecured) /
            capitalBaseOf fin (wRows.getD 3 default).dateN * 100) ∧
      (capitalBaseOf fin (wRows.getD 3 default).dateN ≤ 0 →
        (wRows.getD 3 default).realEstateToT1ACL = 0 ∧
        (wRows.getD 3 default).reConstructionToT1ACL = 0 ∧
        (wRows.getD 3 default).ciLoansToT1ACL = 0 ∧
        (wRows.getD 3 default).agricultureToT1ACL = 0 ∧
        (wRows.getD 3 default).creditCardsToT1ACL = 0 ∧
        (wRows.getD 3 default).commercialReToT1ACL = 0)) ∧
    (wRows.getD 3 default).commercialReToT1ACL = 0 := by
  refine ⟨c3_concentration wIn wRows rfl _ ?_, ?_⟩
  · rw [List.getD_eq_getElem _ _ (by decide : 3 < wRows.length)]
    exact List.getElem_mem _
  · rw [show (wRows.getD 3 default).commercialReToT1ACL =
      (if (0 : ℚ) < capitalBaseOf wr3 20200630 then
        (safe_float wr3.LNRECONS + safe_float wr3.LNREMULT + safe_float wr3.LNRENRES +
          safe_float wr3.LNCOMRE) / capitalBaseOf wr3 20200630 * 100
      else 0) from rfl]
    rw [if_neg]
    unfold capitalBaseOf ceclOf
    norm_num [wr3, safe_float]

/-- C2: for one bank, with the records in engine order (sorted by REPDTE),
row i's 3-year growth metric is none when i < 12; for i ≥ 12 it looks back
exactly 12 index positions in the same bank's sorted sequence: none when
the older non-owner-occupied CRE total is ≤ 0, and
(current / older - 1) * 100 otherwise.  The lookback is by index offset,
not by calendar arithmetic, and the positive-denominator guard means the
total function on ℚ never divides in the ≤ 0 case.  The final conjunct
identifies the engine order with the claim's "sorted ascending by date":
any two records of the sorted sequence have their parsed dates in
ascending order. -/
theorem c2_growth_lookback (bank : String) (fins : List RawPeriodRecord)
    (rows : List DerivedMetricRow) (h : processBank bank fins = Except.ok rows)
    (i : ℕ) (hi : i < rows.length) :
    (i < 12 → (rows.getD i default).noocCreGrowth3yr = none) ∧
    (12 ≤ i → noocCre ((sortedOf fins).getD (i - 12) default) ≤ 0 →
      (rows.getD i default).noocCreGrowth3yr = none) ∧
    (12 ≤ i → 0 < noocCre ((sortedOf fins).getD (i - 12) default) →
      (rows.getD i default).noocCreGrowth3yr =
        some ((noocCre ((sortedOf fins).getD i default) /
          noocCre ((sortedOf fins).getD (i - 12) default) - 1) * 100)) ∧
    (sortedOf fins).Pairwise (fun a b => ∀ da db,
      parseDate (repdteKey a) = some da → parseDate (repdteKey b) = some db →
        da ≤ db) := by
  have hcr := processBank_get h hi
  obtain ⟨d, hpd, hrow⟩ := computeRow_ok hcr
  rw [hrow, mkRow_growth]
  unfold growthAt
  refine ⟨?_, ?_, ?_, ?_⟩
  · intro h12
    rw [if_neg (by omega)]
  · intro h12 hle
    rw [if_pos h12]
    dsimp only
    rw [if_neg (not_lt.mpr hle)]
  · intro h12 hpos
    rw [if_pos h12]
    dsimp only
    rw [if_pos hpos]
  · exact (List.sorted_insertionSort keyLe fins).imp
      (fun hab da db hpa hpb => key_date_mono hab hpa hpb)

/-- Witness for C2 at a concrete two-record bank: the first row (index 0,
fewer than 12 prior periods) has growth none. -/
theorem c2_witness :
    (0 < 12 → (c2Rows.getD 0 default).noocCreGrowth3yr = none) ∧
    (c2Rows.getD 0 default).noocCreGrowth3yr = none :=
  ⟨(c2_growth_lookback "BankB" c2Fins c2Rows rfl 0 (by decide)).1,
    (c2_growth_lookback "BankB" c2Fins c2Rows rfl 0 (by decide)).1 (by decide)⟩

/-- C6: whatever the input mapping and the ordering of each bank's record
sequence, the successful output table is sorted ascending by (parsed)
reporting date. -/
theorem c6_sorted_by_date (input : List (String × List RawPeriodRecord))
    (rows : List DerivedMetricRow) (h : calculate_metrics input = Except.ok rows) :
    rows.Pairwise (fun a b => a.dateN ≤ b.dateN) := by
  obtain ⟨tables, _, _, hrw⟩ := calculate_metrics_ok h
  rw [hrw]
  exact List.Pairwise.imp (fun hab => hab)
    (List.sorted_insertionSort dateLe tables.flatten)

/-- Witness for C6 at a concrete input whose per-bank sequences are given
date-descending for BankA: the output is nevertheless date-ascending. -/
theorem c6_witness : wRows.Pairwise (fun a b => a.dateN ≤ b.dateN) :=
  c6_sorted_by_date wIn wRows rfl

/-- C5 counterexample: a record whose REPDTE key is missing makes the
engine raise (the KeyError of the sort key lookup) instead of producing a
derived row, refuting the claim as stated for missing reporting dates. -/
theorem c5_counterexample :
    calculate_metrics [("BankA", [({} : RawPeriodRecord)])] =
      Except.error "KeyError: REPDTE" := rfl

/-- C5 (amended): for any input in which every record carries a present,
well-formed reporting date — the other fields being arbitrarily missing or
malformed — and at least one bank has at least one record (so the
empty-table corner recorded at C8 is not hit), the engine succeeds with
exactly one derived row per input record and raises nothing. -/
theorem c5_totality (input : List (String × List RawPeriodRecord))
    (hne : ∃ p ∈ input, p.2 ≠ [])
    (hdates : ∀ p ∈ input, ∀ fin ∈ p.2,
      (RawPeriodRecord.repdte fin).isSome = true ∧
      (parseDate (repdteKey fin)).isSome = true) :
    ∃ rows, calculate_metrics input = Except.ok rows ∧
      rows.length = (input.map (fun p => p.2.length)).sum := by
  have htab : ∀ p ∈ input, ∃ t, processBank p.1 p.2 = Except.ok t := by
    intro p hp
    obtain ⟨t, ht, _⟩ := processBank_ok_of_dates (hdates p hp)
    exact ⟨t, ht⟩
  obtain ⟨tables, htables⟩ := tryMap_ok_of_forall htab
  have hf2 := tryMap_ok_forall₂ htables
  have hmap : tables.map List.length = input.map (fun p => p.2.length) :=
    forall₂_map_eq (fun p t hpt => processBank_length hpt) hf2
  obtain ⟨p0, hp0, hp0ne⟩ := hne
  obtain ⟨t0, ht0mem, ht0⟩ := forall₂_mem_left hf2 hp0
  have ht0ne : t0 ≠ [] := by
    intro hnil
    apply hp0ne
    have hlen0 := processBank_length ht0
    rw [hnil] at hlen0
    exact List.length_eq_zero.mp hlen0.symm
  obtain ⟨row0, hrow0⟩ := List.exists_mem_of_ne_nil t0 ht0ne
  have hfl : tables.flatten.isEmpty = false := by
    have hmem : row0 ∈ tables.flatten := List.mem_flatten.mpr ⟨t0, ht0mem, hrow0⟩
    cases hfe : tables.flatten.isEmpty with
    | false => rfl
    | true => rw [List.isEmpty_iff.mp hfe] at hmem; cases hmem
  refine ⟨List.insertionSort dateLe tables.flatten, ?_, ?_⟩
  · unfold calculate_metrics
    rw [htables]
    dsimp only
    rw [if_neg (by simp [hfl])]
  · rw [(List.perm_insertionSort dateLe tables.flatten).length_eq,
      List.length_flatten, hmap]

/-- Witness for the amended C5: a bank whose records carry only a date, an
allowance and a charge-off figure (every other field missing) yields one
row per record. -/
theorem c5_witness :
    (∃ p ∈ c5In, p.2 ≠ []) ∧
    (∀ p ∈ c5In, ∀ fin ∈ p.2,
      (RawPeriodRecord.repdte fin).isSome = true ∧
      (parseDate (repdteKey fin)).isSome = true) ∧
    (∃ rows, calculate_metrics c5In = Except.ok rows ∧
      rows.length = (c5In.map (fun p => p.2.length)).sum) :=
  ⟨by decide, by decide, c5_totality c5In (by decide) (by decide)⟩

/-- C8 counterexample: when every bank's sequence is empty (here the only
bank's), the engine does not return an empty table: the empty DataFrame
has no Date column, so the final conversion raises KeyError. -/
theorem c8_counterexample :
    calculate_metrics [("BankA", ([] : List RawPeriodRecord))] =
      Except.error "KeyError: Date" := rfl

/-- C8 (amended): an input entry with an empty record sequence contributes
zero rows and no error of its own: the engine's result on an input
containing such an entry is identical to its result with that entry
removed.  In particular a bank with zero periods alongside nonempty banks
just drops out of the table; only the all-empty corner fails, as the
counterexample records. -/
theorem c8_empty_bank (pre post : List (String × List RawPeriodRecord)) (b : String) :
    calculate_metrics (pre ++ (b, ([] : List RawPeriodRecord)) :: post) =
      calculate_metrics (pre ++ post) := by
  have key := tryMap_flatten_drop_empty b post pre
  unfold calculate_metrics
  cases h1 : tryMap (fun p => processBank p.1 p.2) (pre ++ (b, []) :: post) with
  | error e =>
    rw [h1] at key
    cases h2 : tryMap (fun p => processBank p.1 p.2) (pre ++ post) with
    | error e2 =>
      rw [h2] at key
      simp only [Except.map] at key
      cases key
      rfl
    | ok t2 => rw [h2] at key; simp [Except.map] at key
  | ok t1 =>
    rw [h1] at key
    cases h2 : tryMap (fun p => processBank p.1 p.2) (pre ++ post) with
    | error e2 => rw [h2] at key; simp [Except.map] at key
    | ok t2 =>
      rw [h2] at key
      simp only [Except.map] at key
      replace key := Except.ok.inj key
      dsimp only
      rw [key]

/-- C9: when the input mapping has pairwise-distinct bank names (it is a
dict) and no bank's sequence repeats a REPDTE value, no two output rows
share the same (bank, date) pair; and every row's date is the parse of one
of that same bank's own reported dates (no interpolation and no
gap-filling across banks). -/
theorem c9_row_uniqueness (input : List (String × List RawPeriodRecord))
    (rows : List DerivedMetricRow) (h : calculate_metrics input = Except.ok rows)
    (hnames : (input.map Prod.fst).Nodup)
    (hdates : ∀ p ∈ input, (p.2.map RawPeriodRecord.repdte).Nodup) :
    rows.Pairwise (fun a b => ¬(a.bank = b.bank ∧ a.dateN = b.dateN)) ∧
    (∀ row ∈ rows, ∃ p ∈ input, row.bank = p.1 ∧
      ∃ fin ∈ p.2, ∃ s, fin.repdte = some s ∧ parseDate s = some row.dateN) := by
  constructor
  · obtain ⟨tables, ht, _, hrw⟩ := calculate_metrics_ok h
    have hf2 := tryMap_ok_forall₂ ht
    rw [hrw]
    have hsym : ∀ {u v : DerivedMetricRow},
        ¬(u.bank = v.bank ∧ u.dateN = v.dateN) →
        ¬(v.bank = u.bank ∧ v.dateN = u.dateN) :=
      fun huv hvu => huv ⟨hvu.1.symm, hvu.2.symm⟩
    rw [(List.perm_insertionSort dateLe tables.flatten).pairwise_iff hsym]
    rw [List.pairwise_flatten]
    constructor
    · intro t htmem
      obtain ⟨p, hp, hpb⟩ := forall₂_mem_right hf2 htmem
      exact (processBank_dates_nodup hpb (hdates p hp)).imp fun hne hco => hne hco.2
    · have hQ : input.Pairwise (fun p q => p.1 ≠ q.1) := List.pairwise_map.mp hnames
      refine pairwise_of_forall₂ ?_ hf2 hQ
      intro p q t u hpt hqu hne x hx y hy
      intro hco
      exact hne (by rw [← processBank_bank hpt hx, ← processBank_bank hqu hy]; exact hco.1)
  · intro row hr
    obtain ⟨p, hp, t, hpb, hrt⟩ := row_provenance_bank h hr
    obtain ⟨i, hi, hcr⟩ := processBank_mem hpb hrt
    obtain ⟨d, hpd, hrow⟩ := computeRow_ok hcr
    have hbank : row.bank = p.1 := by rw [hrow, mkRow_bank]
    have hmem : (sortedOf p.2).getD i default ∈ p.2 := by
      rw [List.getD_eq_getElem _ _ hi]
      exact ((List.perm_insertionSort keyLe p.2).mem_iff).mp (List.getElem_mem hi)
    obtain ⟨s, hs⟩ := Option.isSome_iff_exists.mp ((processBank_ok hpb).1 _ hmem)
    refine ⟨p, hp, hbank, (sortedOf p.2).getD i default, hmem, s, hs, ?_⟩
    have hkey : repdteKey ((sortedOf p.2).getD i default) = s := by
      unfold repdteKey; rw [hs]; rfl
    rw [← hkey, hrow, mkRow_dateN]
    exact hpd

/-- Witness for C9 at a concrete two-bank input with distinct names and
distinct per-bank dates: no (bank, date) pair repeats in the output. -/
theorem c9_witness :
    c9Rows.Pairwise (fun a b => ¬(a.bank = b.bank ∧ a.dateN = b.dateN)) :=
  (c9_row_uniqueness c9In c9Rows rfl (by decide) (by decide)).1

/-- C10: two records dated strictly before 2019-01-01 that differ only in
the CT1BADJ, EQ and EQPP field values produce the same stored CECL
Transition Amount (both 0), the same capital base, and the same six
concentration metrics: the pre-2019 capital computation reads none of
those three fields. -/
theorem c10_pre2019_capital_independent (bank : String) (r : RawPeriodRecord)
    (x y z : Option RawValue) (d : ℕ) (g : Option ℚ)
    (_hd : parseDate (repdteKey r) = some d) (hlt : d < 20190101) :
    ((mkRow bank r d g).ceclTransitionAmount = 0 ∧
      (mkRow bank (setCapFields r x y z) d g).ceclTransitionAmount = 0) ∧
    capitalBaseOf r d = capitalBaseOf (setCapFields r x y z) d ∧
    (mkRow bank r d g).realEstateToT1ACL =
      (mkRow bank (setCapFields r x y z) d g).realEstateToT1ACL ∧
    (mkRow bank r d g).reConstructionToT1ACL =
      (mkRow bank (setCapFields r x y z) d g).reConstructionToT1ACL ∧
    (mkRow bank r d g).ciLoansToT1ACL =
      (mkRow bank (setCapFields r x y z) d g).ciLoansToT1ACL ∧
    (mkRow bank r d g).agricultureToT1ACL =
      (mkRow bank (setCapFields r x y z) d g).agricultureToT1ACL ∧
    (mkRow bank r d g).creditCardsToT1ACL =
      (mkRow bank (setCapFields r x y z) d g).creditCardsToT1ACL ∧
    (mkRow bank r d g).commercialReToT1ACL =
      (mkRow bank (setCapFields r x y z) d g).commercialReToT1ACL := by
  have hnge : ¬ (20190101 ≤ d) := by omega
  have hcb : capitalBaseOf r d = capitalBaseOf (setCapFields r x y z) d := by
    unfold capitalBaseOf
    rw [if_neg hnge, if_neg hnge]
    rfl
  refine ⟨⟨?_, ?_⟩, hcb, ?_, ?_, ?_, ?_, ?_, ?_⟩
  · rw [mkRow_cecl]; unfold ceclOf; rw [if_neg hnge]
  · rw [mkRow_cecl]; unfold ceclOf; rw [if_neg hnge]
  · rw [mkRow_concRE, mkRow_concRE, hcb]; rfl
  · rw [mkRow_concRECons, mkRow_concRECons, hcb]; rfl
  · rw [mkRow_concCI, mkRow_concCI, hcb]; rfl
  · rw [mkRow_concAg, mkRow_concAg, hcb]; rfl
  · rw [mkRow_concCC, mkRow_concCC, hcb]; rfl
  · rw [mkRow_concCRE, mkRow_concCRE, hcb]; rfl

/-- Witness for C10 at a concrete pre-2019 record: replacing CT1BADJ, EQ,
EQPP by unrelated values (a number, a missing field, an unparseable
string) leaves the capital base unchanged. -/
theorem c10_witness :
    parseDate (repdteKey wr0) = some 20181231 ∧
    capitalBaseOf wr0 20181231 =
      capitalBaseOf (setCapFields wr0 (some (RawValue.num 123)) none
        (some (RawValue.strBad "zz"))) 20181231 :=
  ⟨by decide,
    (c10_pre2019_capital_independent "BankA" wr0 (some (RawValue.num 123)) none
      (some (RawValue.strBad "zz")) 20181231 none (by decide) (by decide)).2.1⟩

end FlagstarDash
